import Mathlib

set_option maxRecDepth 100000

/-!
Verification of the warranty-keeper core (warranty status & expiry
computation, message generation, phone normalization, legacy-schema
migration) against a shallow embedding of `src/utils/warrantyUtils.ts`
and the migration effect of `src/App.tsx`.

Date modelling: the source manipulates JavaScript `Date` values that are
created from `YYYY-MM-DD` strings (midnight) and are compared only after
normalizing the time-of-day to midnight, so the embedding works at day
granularity with civil dates `⟨year, month, day⟩` (proleptic Gregorian,
exactly JavaScript's calendar).  `setDate`, `setMonth` and `setFullYear`
are embedded through their ECMAScript `MakeDay` normalization: the
(possibly out-of-range) day-of-month rolls over into subsequent months.
Strings holding dates are embedded as their parse result (`DateVal`):
absent/empty, unparseable, or a parsed civil date.
-/

namespace WarrantyKeeper

/-- A civil date as JavaScript's `Date` presents it at day granularity:
`month` is 1..12 and `day` is 1..daysInMonth for valid dates. -/
structure JsDate where
  year : Int
  month : Nat
  day : Nat
  deriving DecidableEq, Repr

/-- JavaScript's (proleptic Gregorian) leap-year rule. -/
def isLeap (y : Int) : Bool :=
  y % 4 == 0 && (y % 100 != 0 || y % 400 == 0)

/-- Number of days of month `m` (1..12) of year `y`. -/
def dim (y : Int) (m : Nat) : Nat :=
  if m = 2 then (if isLeap y then 29 else 28)
  else if m = 4 ∨ m = 6 ∨ m = 9 ∨ m = 11 then 30
  else 31

/-- Validity of a civil date. -/
def Valid (d : JsDate) : Prop :=
  1 ≤ d.month ∧ d.month ≤ 12 ∧ 1 ≤ d.day ∧ d.day ≤ dim d.year d.month

instance (d : JsDate) : Decidable (Valid d) := by
  unfold Valid; infer_instance

/-- The calendar successor of a day. -/
def nextDay (d : JsDate) : JsDate :=
  if d.day < dim d.year d.month then ⟨d.year, d.month, d.day + 1⟩
  else if d.month < 12 then ⟨d.year, d.month + 1, 1⟩
  else ⟨d.year + 1, 1, 1⟩

/-- The calendar predecessor of a day. -/
def prevDay (d : JsDate) : JsDate :=
  if 1 < d.day then ⟨d.year, d.month, d.day - 1⟩
  else if 1 < d.month then ⟨d.year, d.month - 1, dim d.year (d.month - 1)⟩
  else ⟨d.year - 1, 12, 31⟩

/-- `date.setDate(date.getDate() + p)`: add `p` days with calendar
normalization. -/
def addDays (d : JsDate) : Nat → JsDate
  | 0 => d
  | p + 1 => nextDay (addDays d p)

/-- `date.setDate(date.getDate() - p)`: subtract `p` days. -/
def subDays (d : JsDate) : Nat → JsDate
  | 0 => d
  | p + 1 => subDays (prevDay d) p

/-- `date.setMonth(date.getMonth() + p)`: ECMAScript month arithmetic.
The month index overflows into the year, and a day-of-month that does
not exist in the target month rolls over into the following month
(`MakeDay` normalization), which the embedding expresses by walking
`day - 1` days forward from the 1st of the target month. -/
def addMonths (d : JsDate) (p : Nat) : JsDate :=
  let t := (d.month - 1) + p
  addDays ⟨d.year + (t / 12 : Nat), t % 12 + 1, 1⟩ (d.day - 1)

/-- `date.setFullYear(date.getFullYear() + p)`: same `MakeDay`
normalization with the year shifted (Feb 29 of a leap year rolls to
Mar 1 of a non-leap target year). -/
def addYears (d : JsDate) (p : Nat) : JsDate :=
  addDays ⟨d.year + p, d.month, 1⟩ (d.day - 1)

/-- `date.setFullYear(date.getFullYear() - p)`: the inverse-unit
operation for years. -/
def subYears (d : JsDate) (p : Nat) : JsDate :=
  addDays ⟨d.year - p, d.month, 1⟩ (d.day - 1)

/-- A strictly monotone (for valid dates) integer encoding of the
timestamp order: comparisons of JavaScript `Date`s compare timestamps,
which for midnight-normalized valid dates order exactly like the
lexicographic order on `(year, month, day)`. -/
def dateKey (d : JsDate) : Int :=
  d.year * 512 + d.month * 32 + d.day

/-- The warranty-period unit enum `'days' | 'weeks' | 'months' | 'years'`. -/
inductive TUnit
  | days
  | weeks
  | months
  | years
  deriving DecidableEq, Repr

/-- The display text of a unit. -/
def unitStr : TUnit → String
  | .days => "days"
  | .weeks => "weeks"
  | .months => "months"
  | .years => "years"

/-- The parse status of a `Date | string | undefined` input as the source
observes it: `undef` for `undefined`/`null`/empty string (falsy), `invalid`
for a non-empty string (or `Date`) that fails `new Date(...)` parsing, and
`val d` for one parsing to the civil date `d`. -/
inductive DateVal
  | undef
  | invalid
  | val (d : JsDate)
  deriving DecidableEq, Repr

/-- Truthiness of a date-holding string: non-empty (parseable or not). -/
def truthyD : DateVal → Bool
  | .undef => false
  | _ => true

/-- The `switch (unit)` body of `calculateExpiryDate`. -/
def addUnit (d : JsDate) (period : Nat) : TUnit → JsDate
  | .days => addDays d period
  | .weeks => addDays d (period * 7)
  | .months => addMonths d period
  | .years => addYears d period

/-- `calculateExpiryDate` of `src/utils/warrantyUtils.ts`: `null` when the
start date is absent or unparseable, otherwise the start plus `period`
units. -/
def calculateExpiryDate (startDate : DateVal) (period : Nat) (unit : TUnit) : Option JsDate :=
  match startDate with
  | .val d => some (addUnit d period unit)
  | _ => none

/-- `String(n).padStart(2, '0')`. -/
def pad2 (n : Nat) : String :=
  if n < 10 then "0" ++ toString n else toString n

/-- `formatDate` of `src/utils/warrantyUtils.ts`. -/
def formatDate : DateVal → String
  | .undef => "N/A"
  | .invalid => "Invalid Date"
  | .val d =>
      if d.year > 9000 then "Does not expire"
      else pad2 d.day ++ "/" ++ pad2 d.month ++ "/" ++ toString d.year

/-- `formatWarrantyText`: singularizes the unit (`unit.slice(0, -1)`)
exactly when the period is 1; a zero period renders as `0 <unit>`. -/
def formatWarrantyText (period : Nat) (unit : TUnit) : String :=
  if period = 0 then "0 " ++ unitStr unit
  else toString period ++ " " ++ (if period = 1 then (unitStr unit).dropRight 1 else unitStr unit)

/-- The `servicesProvided` object `{ supply, install }`. -/
structure Services where
  supply : Bool
  install : Bool
  deriving DecidableEq, Repr

/-- `getServiceText` of `src/utils/warrantyUtils.ts` (`none` models an
`undefined` services object). -/
def getServiceText : Option Services → String
  | none => "N/A"
  | some s =>
      if s.supply && !s.install then "Supply Only"
      else if !s.supply && s.install then "Install"
      else if s.supply && s.install then "Supply & Install"
      else "N/A"

/-- A `Product` of `src/types.ts`; `purchaseDate` is embedded as its parse
status. -/
structure Product where
  productName : String
  serialNumber : String
  purchaseDate : DateVal
  productWarrantyPeriod : Nat
  productWarrantyUnit : TUnit
  deriving DecidableEq, Repr

/-- A `Warranty` of `src/types.ts`, restricted to the fields the verified
functions read (`id`, `postcode`, `district`, `state`, `buildingType` and
`otherBuildingType` are opaque strings that none of the verified functions
inspect). -/
structure Warranty where
  customerName : String
  phoneNumber : String
  email : String
  products : List Product
  servicesProvided : Option Services
  installDate : DateVal
  installationWarrantyPeriod : Nat
  installationWarrantyUnit : TUnit
  deriving DecidableEq, Repr

/-- The `WarrantyStatus` enum. -/
inductive WarrantyStatus
  | Active
  | ExpiringSoon
  | Expired
  deriving DecidableEq, Repr

/-- The `WarrantyStatusInfo` result record. -/
structure WarrantyStatusInfo where
  status : WarrantyStatus
  color : String
  expiryDate : JsDate
  deriving DecidableEq, Repr

/-- `Math.max` over two dates' timestamps (reconstructed via
`new Date(ms)`). -/
def maxDate (a b : JsDate) : JsDate :=
  if dateKey a < dateKey b then b else a

/-- Truthiness of `warranty.servicesProvided?.install`. -/
def servicesInstall (w : Warranty) : Bool :=
  match w.servicesProvided with
  | some s => s.install
  | none => false

/-- The `allExpiryDates` collection of `getWarrantyStatusInfo`: expiries of
products with a positive warranty period (in product order), then — when
`servicesProvided?.install` holds, `installDate` is set and the
installation period is positive — the installation expiry. -/
def collectExpiryDates (w : Warranty) : List JsDate :=
  (w.products.filterMap fun p =>
    if p.productWarrantyPeriod > 0 then
      calculateExpiryDate p.purchaseDate p.productWarrantyPeriod p.productWarrantyUnit
    else none)
  ++ (if servicesInstall w && truthyD w.installDate &&
         decide (0 < w.installationWarrantyPeriod) then
        (calculateExpiryDate w.installDate w.installationWarrantyPeriod w.installationWarrantyUnit).toList
      else [])

/-- `getWarrantyStatusInfo` of `src/utils/warrantyUtils.ts`, with `today`
passed explicitly (the source reads the clock); all dates are already at
midnight in the day-granularity model, so the `setHours(0,0,0,0)` calls
are identities and `thirtyDaysFromNow` is `today` plus 30 days. -/
def getWarrantyStatusInfo (today : JsDate) (w : Warranty) : WarrantyStatusInfo :=
  match collectExpiryDates w with
  | [] => ⟨.Active, "bg-brand-success", ⟨9999, 12, 31⟩⟩
  | x :: xs =>
      let latestExpiryDate := xs.foldl maxDate x
      let thirtyDaysFromNow := addDays today 30
      if dateKey latestExpiryDate < dateKey today then
        ⟨.Expired, "bg-brand-danger", latestExpiryDate⟩
      else if dateKey latestExpiryDate ≤ dateKey thirtyDaysFromNow then
        ⟨.ExpiringSoon, "bg-brand-warning", latestExpiryDate⟩
      else
        ⟨.Active, "bg-brand-success", latestExpiryDate⟩

/-- `formatPhoneNumberForWhatsApp` of `src/utils/warrantyUtils.ts`:
empty-string guard, `replace(/\D/g, '')`, `'6' + cleaned` when the digits
start with `'0'`, `'60' + cleaned` when they still do not start with
`"60"`. -/
def formatPhoneNumberForWhatsApp (phone : String) : String :=
  if phone = "" then ""
  else
    let cleaned := phone.data.filter Char.isDigit
    let cleaned := if cleaned.take 1 = ['0'] then '6' :: cleaned else cleaned
    let cleaned := if cleaned.take 2 = ['6', '0'] then cleaned else '6' :: '0' :: cleaned
    String.mk cleaned

/-- Modelled from the spec's words for the refinement claim about WhatsApp
normalization: strip all non-digit characters; if the result starts with
the trunk-prefix digit `0`, replace that leading digit so as to yield the
`60`-prefixed form; if the result still does not start with `60`, prepend
`60`. (No empty-input guard appears in the spec's description.) -/
def formatPhoneSpec (phone : String) : String :=
  let digits := phone.data.filter Char.isDigit
  let step1 := if digits.take 1 = ['0'] then '6' :: '0' :: digits.drop 1 else digits
  let step2 := if step1.take 2 = ['6', '0'] then step1 else '6' :: '0' :: step1
  String.mk step2

/-- The `unexpiredProducts` filter predicate of `generateShareMessage`'s
reminder branch: positive period and a computed expiry of today or
later. -/
def unexpiredProduct (today : JsDate) (p : Product) : Bool :=
  if p.productWarrantyPeriod = 0 then false
  else
    match calculateExpiryDate p.purchaseDate p.productWarrantyPeriod p.productWarrantyUnit with
    | some e => dateKey today ≤ dateKey e
    | none => false

/-- The `installationExpiry` of the reminder branch: computed only when an
install date is set and the installation period is positive. -/
def installationExpiry (w : Warranty) : Option JsDate :=
  if truthyD w.installDate && decide (0 < w.installationWarrantyPeriod) then
    calculateExpiryDate w.installDate w.installationWarrantyPeriod w.installationWarrantyUnit
  else none

/-- `isInstallationUnexpired` of the reminder branch. -/
def isInstallationUnexpired (today : JsDate) (w : Warranty) : Bool :=
  match installationExpiry w with
  | some e => dateKey today ≤ dateKey e
  | none => false

/-- One product block of the reminder message body. -/
def reminderProductBlock (p : Product) : String :=
  "Item: " ++ p.productName ++ "\n" ++
  "  Serial Number: " ++ p.serialNumber ++ "\n" ++
  "  Purchase Date: " ++ formatDate p.purchaseDate ++ "\n" ++
  "  Warranty: " ++ formatWarrantyText p.productWarrantyPeriod p.productWarrantyUnit ++ "\n" ++
  "  Expires on: " ++
    (match calculateExpiryDate p.purchaseDate p.productWarrantyPeriod p.productWarrantyUnit with
     | some e => formatDate (.val e)
     | none => "N/A") ++ "\n\n"

/-- One indexed product block of the initial-share message body. -/
def shareProductBlock (i : Nat) (p : Product) : String :=
  "Item " ++ toString (i + 1) ++ ": " ++ p.productName ++ "\n" ++
  "  Serial Number: " ++ p.serialNumber ++ "\n" ++
  "  Purchase Date: " ++ formatDate p.purchaseDate ++ "\n" ++
  "  Warranty: " ++ formatWarrantyText p.productWarrantyPeriod p.productWarrantyUnit ++ "\n" ++
  "  Expires on: " ++
    (match calculateExpiryDate p.purchaseDate p.productWarrantyPeriod p.productWarrantyUnit with
     | some e => formatDate (.val e)
     | none => "N/A") ++ "\n\n"

/-- `generateShareMessage` of `src/utils/warrantyUtils.ts`, with `today`
passed explicitly (the source reads the clock in the reminder branch). -/
def generateShareMessage (today : JsDate) (w : Warranty) (isReminder : Bool) : String :=
  let message := "Hi " ++ w.customerName ++ ",\n\n"
  if isReminder then
    let message := message ++
      "This is a friendly reminder that the warranty for the following item(s) is expiring soon. Here are the details:\n\n"
    let unexpiredProducts := w.products.filter (unexpiredProduct today)
    let instUnexpired := isInstallationUnexpired today w
    let message := if unexpiredProducts.length > 0 then
        message ++ "--- Products & Warranties ---\n" ++
          String.join (unexpiredProducts.map reminderProductBlock)
      else message
    let message := if servicesInstall w && instUnexpired then
        message ++ "--- Service Information ---\n" ++
        "Service Type: Installation\n" ++
        "Installation Date: " ++ formatDate w.installDate ++ "\n" ++
        "Installation Warranty: " ++
          formatWarrantyText w.installationWarrantyPeriod w.installationWarrantyUnit ++ "\n" ++
        "Installation Warranty Expires: " ++
          (match installationExpiry w with
           | some e => formatDate (.val e)
           | none => "N/A") ++ "\n\n"
      else message
    if unexpiredProducts.length > 0 || (servicesInstall w && instUnexpired) then
      message ++ "Thank you!"
    else
      "Hi " ++ w.customerName ++
        ",\n\nThis is a friendly reminder regarding your warranties. Please review your records for items that may be expiring soon.\n\nThank you!"
  else
    let message := message ++ "Here are the warranty details for your recent purchase:\n\n"
    let message := if w.products.length > 0 then
        message ++ "--- Products & Warranties ---\n" ++
          String.join (w.products.enum.map fun ip => shareProductBlock ip.1 ip.2)
      else message
    let message := message ++ "--- Service Information ---\n" ++
      "Services Provided: " ++ getServiceText w.servicesProvided ++ "\n"
    let message := if servicesInstall w then
        let instExp := if truthyD w.installDate then
            calculateExpiryDate w.installDate w.installationWarrantyPeriod w.installationWarrantyUnit
          else none
        message ++ "Installation Date: " ++ formatDate w.installDate ++ "\n" ++
        (if w.installationWarrantyPeriod > 0 then
           "Installation Warranty: " ++
             formatWarrantyText w.installationWarrantyPeriod w.installationWarrantyUnit ++ "\n" ++
           "Installation Warranty Expires: " ++
             (match instExp with
              | some e => formatDate (.val e)
              | none => "N/A") ++ "\n"
         else "")
      else message
    message ++ "\n" ++ "Thank you for your purchase!"

/-- The color token each status always pairs with in
`getWarrantyStatusInfo` (statement-side definition for the color/status
coupling claim). -/
def statusColor : WarrantyStatus → String
  | .Expired => "bg-brand-danger"
  | .ExpiringSoon => "bg-brand-warning"
  | .Active => "bg-brand-success"

/-- A loosely-shaped product as the `App.tsx` migration reads it: every
field may be absent (`none` models `undefined`). -/
structure MigProduct where
  productName : Option String
  serialNumber : Option String
  purchaseDate : Option String
  productWarrantyPeriod : Option Nat
  productWarrantyUnit : Option String
  deriving DecidableEq, Repr

/-- A loosely-shaped stored warranty record as the `App.tsx` migration
reads it: legacy top-level product fields may be present, `products` and
`servicesProvided` may be absent.  Fields the migration neither reads nor
writes are spread through unchanged (`{ ...w }`) and are omitted. -/
structure MigRecord where
  productName : Option String
  serialNumber : Option String
  purchaseDate : Option String
  productWarrantyPeriod : Option Nat
  productWarrantyUnit : Option String
  products : Option (List MigProduct)
  servicesProvided : Option Services
  installDate : Option String
  installationWarrantyPeriod : Option Nat
  deriving DecidableEq, Repr

/-- JavaScript truthiness of an optional string field (empty string and
`undefined` are falsy). -/
def truthyStr : Option String → Bool
  | some s => s != ""
  | none => false

/-- JavaScript truthiness of an optional number field (0 and `undefined`
are falsy). -/
def truthyNat : Option Nat → Bool
  | some n => n != 0
  | none => false

/-- JavaScript `a || dflt` for an optional string against a string
default. -/
def jsOrStr (a : Option String) (dflt : String) : String :=
  match a with
  | some s => if s = "" then dflt else s
  | none => dflt

/-- JavaScript `a || b` for two optional strings (the second operand is
returned as-is, possibly `undefined`). -/
def jsOrOptStr (a b : Option String) : Option String :=
  if truthyStr a then a else b

/-- JavaScript `a ?? b ?? 0` for optional numbers. -/
def jsCoalesceNat (a b : Option Nat) : Nat :=
  match a with
  | some n => n
  | none => b.getD 0

/-- The per-product merge of the `App.tsx` migration: a product in an
existing `products` array inherits the legacy parent-level purchase date,
period and unit only for fields it does not itself define. -/
def migrateProduct (parent : MigRecord) (p : MigProduct) : MigProduct :=
  { p with
    purchaseDate := jsOrOptStr p.purchaseDate parent.purchaseDate,
    productWarrantyPeriod := some (jsCoalesceNat p.productWarrantyPeriod parent.productWarrantyPeriod),
    productWarrantyUnit := some (jsOrStr p.productWarrantyUnit (jsOrStr parent.productWarrantyUnit "months")) }

/-- The single product the `App.tsx` migration synthesizes from legacy
top-level fields when the record has no (non-empty) `products` array. -/
def legacySingleton (w : MigRecord) : MigProduct :=
  ⟨some (jsOrStr w.productName ""), some (jsOrStr w.serialNumber ""), w.purchaseDate,
   some (w.productWarrantyPeriod.getD 0), some (jsOrStr w.productWarrantyUnit "months")⟩

/-- The per-record body of the `App.tsx` migration `useEffect`: legacy
product-field migration (with the five top-level legacy fields deleted
afterwards), then `servicesProvided` synthesis when absent. -/
def migrateRecord (w : MigRecord) : MigRecord :=
  let w1 :=
    if truthyStr w.productName || truthyStr w.purchaseDate then
      let migratedProducts :=
        match w.products with
        | some ps => if ps.length > 0 then ps.map (migrateProduct w) else [legacySingleton w]
        | none => [legacySingleton w]
      { w with products := some migratedProducts,
               productName := none, serialNumber := none, purchaseDate := none,
               productWarrantyPeriod := none, productWarrantyUnit := none }
    else w
  if w.servicesProvided.isNone then
    let supply := !truthyStr w.installDate && !truthyNat w.installationWarrantyPeriod
    let install := truthyStr w.installDate || decide (0 < w.installationWarrantyPeriod.getD 0)
    { w1 with servicesProvided := some (Services.mk supply install) }
  else w1

/-- Whether a record triggers the migration scan
(`(w as any).productName || (w as any).purchaseDate ||
!w.servicesProvided`). -/
def needsMigration (w : MigRecord) : Bool :=
  truthyStr w.productName || truthyStr w.purchaseDate || w.servicesProvided.isNone

/-- The whole-store migration of the `App.tsx` startup `useEffect`: if any
record triggers, every record is rewritten, otherwise the store is left
untouched. -/
def migrateWarranties (ws : List MigRecord) : List MigRecord :=
  if ws.any needsMigration then ws.map migrateRecord else ws

end WarrantyKeeper

namespace WarrantyKeeper

theorem valid_mk (y : Int) (m d : Nat) :
    Valid ⟨y, m, d⟩ ↔ (1 ≤ m ∧ m ≤ 12 ∧ 1 ≤ d ∧ d ≤ dim y m) := Iff.rfl

theorem dim_ge (y : Int) (m : Nat) : 28 ≤ dim y m := by
  unfold dim; split_ifs <;> omega

theorem dim_le (y : Int) (m : Nat) : dim y m ≤ 31 := by
  unfold dim; split_ifs <;> omega

theorem nextDay_valid {d : JsDate} (h : Valid d) : Valid (nextDay d) := by
  obtain ⟨y, m, dd⟩ := d
  rw [valid_mk] at h
  obtain ⟨h1, h2, h3, h4⟩ := h
  unfold nextDay
  dsimp only
  split_ifs with c1 c2 <;> rw [valid_mk]
  · exact ⟨h1, h2, by omega, by omega⟩
  · exact ⟨by omega, by omega, by omega, by have := dim_ge y (m + 1); omega⟩
  · exact ⟨by omega, by omega, by omega, by have := dim_ge (y + 1) 1; omega⟩

theorem prevDay_nextDay {d : JsDate} (h : Valid d) : prevDay (nextDay d) = d := by
  obtain ⟨y, m, dd⟩ := d
  rw [valid_mk] at h
  obtain ⟨h1, h2, h3, h4⟩ := h
  unfold nextDay
  dsimp only
  split_ifs with c1 c2
  · unfold prevDay
    dsimp only
    rw [if_pos (by omega)]
    simp
  · unfold prevDay
    dsimp only
    rw [if_neg (by omega), if_pos (by omega)]
    have hm : m + 1 - 1 = m := by omega
    have hd : dd = dim y m := by omega
    simp [hm, hd]
  · unfold prevDay
    dsimp only
    rw [if_neg (by omega), if_neg (by omega)]
    have hy : y + 1 - 1 = y := by ring
    have hm : m = 12 := by omega
    have hd : dd = 31 := by
      have : dim y m = 31 := by unfold dim; rw [hm]; simp
      omega
    simp [hy, hm, hd]

theorem addDays_valid {d : JsDate} (h : Valid d) (p : Nat) : Valid (addDays d p) := by
  induction p with
  | zero => exact h
  | succ n ih => exact nextDay_valid ih

theorem addDays_add (d : JsDate) (a b : Nat) :
    addDays d (a + b) = addDays (addDays d a) b := by
  induction b with
  | zero => rfl
  | succ n ih =>
    rw [Nat.add_succ]
    show nextDay (addDays d (a + n)) = nextDay (addDays (addDays d a) n)
    exact congrArg nextDay ih

theorem subDays_addDays {d : JsDate} (h : Valid d) (p : Nat) :
    subDays (addDays d p) p = d := by
  induction p with
  | zero => rfl
  | succ n ih =>
    show subDays (nextDay (addDays d n)) (n + 1) = d
    have hv : Valid (addDays d n) := addDays_valid h n
    calc subDays (nextDay (addDays d n)) (n + 1)
        = subDays (prevDay (nextDay (addDays d n))) n := rfl
      _ = subDays (addDays d n) n := by rw [prevDay_nextDay hv]
      _ = d := ih

/-- Walking `k` days from the 1st stays inside the month as long as
`1 + k` does not exceed the month length. -/
theorem addDays_first (y : Int) (m : Nat) :
    ∀ k : Nat, 1 + k ≤ dim y m → addDays ⟨y, m, 1⟩ k = ⟨y, m, 1 + k⟩ := by
  intro k
  induction k with
  | zero => intro _; rfl
  | succ n ih =>
    intro hk
    have hn : 1 + n ≤ dim y m := by omega
    show nextDay (addDays ⟨y, m, 1⟩ n) = _
    rw [ih hn]
    unfold nextDay
    dsimp only
    rw [if_pos (by omega)]
    have h2 : 1 + n + 1 = 1 + (n + 1) := by omega
    rw [h2]

/-- Walking `d - 1` days from the 1st overflows into the following month
when the day-of-month `d` does not exist in month `m` (ECMAScript
`MakeDay` rollover; at most 3 days can overflow, so the result stays in
month `m + 1`, and `m ≠ 12` because December has 31 days). -/
theorem addDays_first_overflow (y : Int) (m : Nat) (hm1 : 1 ≤ m) (hm2 : m ≤ 12)
    (d : Nat) (hd1 : 1 ≤ d) (hd2 : d ≤ 31) (hover : dim y m < d) :
    addDays ⟨y, m, 1⟩ (d - 1) = ⟨y, m + 1, d - dim y m⟩ := by
  have hm12 : m ≠ 12 := by
    intro hm
    rw [hm] at hover
    have h31 : dim y 12 = 31 := rfl
    omega
  have hge := dim_ge y m
  have hgem1 := dim_ge y (m + 1)
  have hsplit : d - 1 = (dim y m - 1) + 1 + (d - dim y m - 1) := by omega
  rw [hsplit, addDays_add, addDays_add]
  rw [addDays_first y m (dim y m - 1) (by omega)]
  have h1 : addDays (⟨y, m, 1 + (dim y m - 1)⟩ : JsDate) 1 =
      nextDay ⟨y, m, 1 + (dim y m - 1)⟩ := rfl
  rw [h1]
  have hD : 1 + (dim y m - 1) = dim y m := by omega
  rw [hD]
  have hnext : nextDay ⟨y, m, dim y m⟩ = ⟨y, m + 1, 1⟩ := by
    unfold nextDay
    dsimp only
    rw [if_neg (by omega), if_pos (by omega)]
  rw [hnext]
  rw [addDays_first y (m + 1) (d - dim y m - 1) (by omega)]
  congr 1
  omega

theorem dateKey_lt_nextDay {d : JsDate} (h : Valid d) :
    dateKey d < dateKey (nextDay d) := by
  obtain ⟨y, m, dd⟩ := d
  rw [valid_mk] at h
  obtain ⟨h1, h2, h3, h4⟩ := h
  have hle := dim_le y m
  unfold nextDay
  dsimp only
  split_ifs with c1 c2 <;> unfold dateKey <;> dsimp only <;> push_cast <;> omega

theorem dateKey_le_addDays {d : JsDate} (h : Valid d) (p : Nat) :
    dateKey d ≤ dateKey (addDays d p) := by
  induction p with
  | zero => exact le_refl _
  | succ n ih =>
    have hs : addDays d (n + 1) = nextDay (addDays d n) := rfl
    rw [hs]
    exact le_trans ih (le_of_lt (dateKey_lt_nextDay (addDays_valid h n)))

theorem dateKey_prevDay_lt {d : JsDate} (h : Valid d) :
    dateKey (prevDay d) < dateKey d := by
  obtain ⟨y, m, dd⟩ := d
  rw [valid_mk] at h
  obtain ⟨h1, h2, h3, h4⟩ := h
  have hle := dim_le y (m - 1)
  unfold prevDay
  dsimp only
  split_ifs with c1 c2 <;> unfold dateKey <;> dsimp only <;> push_cast <;> omega

theorem foldl_maxDate_mem (xs : List JsDate) : ∀ x : JsDate, xs.foldl maxDate x ∈ x :: xs := by
  induction xs with
  | nil => intro x; exact List.mem_singleton.mpr rfl
  | cons y ys ih =>
    intro x
    have hstep : (y :: ys).foldl maxDate x = ys.foldl maxDate (maxDate x y) := rfl
    rw [hstep]
    have hm := ih (maxDate x y)
    have hxy : maxDate x y = x ∨ maxDate x y = y := by
      unfold maxDate
      split_ifs <;> simp
    rcases List.mem_cons.mp hm with hh | ht
    · rcases hxy with hx | hy
      · rw [hh, hx]; exact List.mem_cons_self _ _
      · rw [hh, hy]; exact List.mem_cons_of_mem _ (List.mem_cons_self _ _)
    · exact List.mem_cons_of_mem _ (List.mem_cons_of_mem _ ht)

theorem dateKey_le_maxDate_left (a b : JsDate) : dateKey a ≤ dateKey (maxDate a b) := by
  unfold maxDate
  split_ifs with hc
  · exact le_of_lt hc
  · exact le_refl _

theorem dateKey_le_maxDate_right (a b : JsDate) : dateKey b ≤ dateKey (maxDate a b) := by
  unfold maxDate
  split_ifs with hc
  · exact le_refl _
  · omega

theorem foldl_maxDate_ge (xs : List JsDate) :
    ∀ x : JsDate, ∀ e ∈ x :: xs, dateKey e ≤ dateKey (xs.foldl maxDate x) := by
  induction xs with
  | nil =>
    intro x e he
    rcases List.mem_cons.mp he with hh | ht
    · rw [hh]; exact le_refl _
    · cases ht
  | cons y ys ih =>
    intro x e he
    have hstep : (y :: ys).foldl maxDate x = ys.foldl maxDate (maxDate x y) := rfl
    rw [hstep]
    have hhead : dateKey (maxDate x y) ≤ dateKey (ys.foldl maxDate (maxDate x y)) :=
      ih (maxDate x y) (maxDate x y) (List.mem_cons_self _ _)
    rcases List.mem_cons.mp he with hh | ht
    · rw [hh]
      exact le_trans (dateKey_le_maxDate_left x y) hhead
    · rcases List.mem_cons.mp ht with hh2 | ht2
      · rw [hh2]
        exact le_trans (dateKey_le_maxDate_right x y) hhead
      · exact ih (maxDate x y) e (List.mem_cons_of_mem _ ht2)

/-- The reduced form of `getWarrantyStatusInfo` when the collected expiry
set is non-empty. -/
theorem getWarrantyStatusInfo_cons (today : JsDate) (w : Warranty)
    (x : JsDate) (xs : List JsDate) (hc : collectExpiryDates w = x :: xs) :
    getWarrantyStatusInfo today w =
      (if dateKey (xs.foldl maxDate x) < dateKey today then
        ⟨.Expired, "bg-brand-danger", xs.foldl maxDate x⟩
      else if dateKey (xs.foldl maxDate x) ≤ dateKey (addDays today 30) then
        ⟨.ExpiringSoon, "bg-brand-warning", xs.foldl maxDate x⟩
      else ⟨.Active, "bg-brand-success", xs.foldl maxDate x⟩) := by
  unfold getWarrantyStatusInfo
  rw [hc]

/-- C1: for a warranty with a non-empty collected expiry set (all dates at
midnight granularity), the classifier sends a latest-expiry reference
before today to `Expired`, a reference between today and today + 30 days
(inclusive) to `ExpiringSoon`, and a later reference to `Active`; in
particular exactly today + 30 days is `ExpiringSoon`, today + 31 days is
`Active`, and today - 1 day is `Expired`. -/
theorem getWarrantyStatusInfo_classifies (today : JsDate) (w : Warranty)
    (ht : Valid today) (x : JsDate) (xs : List JsDate)
    (hc : collectExpiryDates w = x :: xs) :
    (dateKey (xs.foldl maxDate x) < dateKey today →
      (getWarrantyStatusInfo today w).status = .Expired) ∧
    (dateKey today ≤ dateKey (xs.foldl maxDate x) →
      dateKey (xs.foldl maxDate x) ≤ dateKey (addDays today 30) →
      (getWarrantyStatusInfo today w).status = .ExpiringSoon) ∧
    (dateKey (addDays today 30) < dateKey (xs.foldl maxDate x) →
      (getWarrantyStatusInfo today w).status = .Active) ∧
    (xs.foldl maxDate x = addDays today 30 →
      (getWarrantyStatusInfo today w).status = .ExpiringSoon) ∧
    (xs.foldl maxDate x = addDays today 31 →
      (getWarrantyStatusInfo today w).status = .Active) ∧
    (xs.foldl maxDate x = prevDay today →
      (getWarrantyStatusInfo today w).status = .Expired) := by
  rw [getWarrantyStatusInfo_cons today w x xs hc]
  have h30 : dateKey today ≤ dateKey (addDays today 30) := dateKey_le_addDays ht 30
  have h31 : dateKey (addDays today 30) < dateKey (addDays today 31) := by
    have hs : addDays today 31 = nextDay (addDays today 30) := rfl
    rw [hs]
    exact dateKey_lt_nextDay (addDays_valid ht 30)
  refine ⟨?_, ?_, ?_, ?_, ?_, ?_⟩
  · intro hlt
    rw [if_pos hlt]
  · intro hge hle
    rw [if_neg (by omega), if_pos hle]
  · intro hgt
    rw [if_neg (by omega), if_neg (by omega)]
  · intro heq
    rw [heq, if_neg (by omega), if_pos (le_refl _)]
  · intro heq
    rw [heq, if_neg (by omega), if_neg (by omega)]
  · intro heq
    have hlt := dateKey_prevDay_lt ht
    rw [heq, if_pos hlt]

/-- Witness for C1: a concrete warranty whose sole collected expiry is
exactly `today + 30` days classifies as `ExpiringSoon`. -/
theorem getWarrantyStatusInfo_classifies_witness :
    (getWarrantyStatusInfo ⟨2024, 5, 15⟩
      ⟨"Ann", "0123", "a@b.c",
        [⟨"Router", "SN1", .val ⟨2024, 6, 13⟩, 1, .days⟩],
        some ⟨true, false⟩, .undef, 0, .months⟩).status = .ExpiringSoon := by
  have h := getWarrantyStatusInfo_classifies ⟨2024, 5, 15⟩
      ⟨"Ann", "0123", "a@b.c",
        [⟨"Router", "SN1", .val ⟨2024, 6, 13⟩, 1, .days⟩],
        some ⟨true, false⟩, .undef, 0, .months⟩
      (by decide) ⟨2024, 6, 14⟩ [] (by rfl)
  exact h.2.2.2.1 (by rfl)

/-- C2: the collected expiry set of `getWarrantyStatusInfo` holds exactly
the expiries of products with a positive warranty period plus (when
`servicesProvided.install` is set, an install date exists and the
installation period is positive) the installation expiry; an empty set
yields `Active` with the year-9999 sentinel, and otherwise the returned
expiry reference is the latest (maximum) collected date. -/
theorem getWarrantyStatusInfo_latest (today : JsDate) (w : Warranty) :
    (∀ e : JsDate, e ∈ collectExpiryDates w ↔
      ((∃ p, p ∈ w.products ∧ 0 < p.productWarrantyPeriod ∧
          calculateExpiryDate p.purchaseDate p.productWarrantyPeriod p.productWarrantyUnit = some e) ∨
       (servicesInstall w = true ∧ truthyD w.installDate = true ∧
          0 < w.installationWarrantyPeriod ∧
          calculateExpiryDate w.installDate w.installationWarrantyPeriod w.installationWarrantyUnit = some e))) ∧
    (collectExpiryDates w = [] →
      getWarrantyStatusInfo today w =
        ⟨.Active, "bg-brand-success", ⟨9999, 12, 31⟩⟩) ∧
    (collectExpiryDates w ≠ [] →
      (getWarrantyStatusInfo today w).expiryDate ∈ collectExpiryDates w ∧
      ∀ e ∈ collectExpiryDates w,
        dateKey e ≤ dateKey ((getWarrantyStatusInfo today w).expiryDate)) := by
  refine ⟨?_, ?_, ?_⟩
  · intro e
    unfold collectExpiryDates
    simp only [List.mem_append, List.mem_filterMap]
    constructor
    · rintro (⟨p, hp, hif⟩ | hinst)
      · left
        refine ⟨p, hp, ?_, ?_⟩
        · by_contra hn
          rw [if_neg hn] at hif
          exact Option.noConfusion hif
        · by_cases hpos : 0 < p.productWarrantyPeriod
          · rwa [if_pos hpos] at hif
          · rw [if_neg hpos] at hif
            exact absurd hif (by simp)
      · right
        by_cases hcond : (servicesInstall w && truthyD w.installDate &&
            decide (0 < w.installationWarrantyPeriod)) = true
        · rw [if_pos hcond] at hinst
          simp only [Bool.and_eq_true, decide_eq_true_eq] at hcond
          refine ⟨hcond.1.1, hcond.1.2, hcond.2, ?_⟩
          simpa using hinst
        · rw [if_neg hcond] at hinst
          exact absurd hinst (List.not_mem_nil e)
    · rintro (⟨p, hp, hpos, hce⟩ | ⟨hi1, hi2, hi3, hce⟩)
      · left
        exact ⟨p, hp, by rw [if_pos hpos]; exact hce⟩
      · right
        rw [if_pos (by simp [hi1, hi2, hi3])]
        simp [hce]
  · intro hc
    unfold getWarrantyStatusInfo
    rw [hc]
  · intro hc
    obtain ⟨x, xs, hx⟩ := List.exists_cons_of_ne_nil hc
    rw [getWarrantyStatusInfo_cons today w x xs hx, hx]
    have hmem := foldl_maxDate_mem xs x
    have hge := foldl_maxDate_ge xs
    constructor
    · split_ifs <;> exact hmem
    · intro e he
      split_ifs <;> exact hge x e he

/-- Witness for C2: a concrete warranty with two product expiries and an
installation expiry, whose returned expiry reference is their maximum. -/
theorem getWarrantyStatusInfo_latest_witness :
    (collectExpiryDates
        ⟨"Bo", "0", "b@c.d",
          [⟨"TV", "S1", .val ⟨2024, 1, 10⟩, 2, .days⟩,
           ⟨"Fan", "S2", .val ⟨2024, 3, 1⟩, 1, .weeks⟩],
          some ⟨true, true⟩, .val ⟨2024, 2, 1⟩, 1, .days⟩ ≠ []) ∧
    (getWarrantyStatusInfo ⟨2024, 1, 1⟩
        ⟨"Bo", "0", "b@c.d",
          [⟨"TV", "S1", .val ⟨2024, 1, 10⟩, 2, .days⟩,
           ⟨"Fan", "S2", .val ⟨2024, 3, 1⟩, 1, .weeks⟩],
          some ⟨true, true⟩, .val ⟨2024, 2, 1⟩, 1, .days⟩).expiryDate = ⟨2024, 3, 8⟩ := by
  constructor
  · decide
  · have h := (getWarrantyStatusInfo_latest ⟨2024, 1, 1⟩
        ⟨"Bo", "0", "b@c.d",
          [⟨"TV", "S1", .val ⟨2024, 1, 10⟩, 2, .days⟩,
           ⟨"Fan", "S2", .val ⟨2024, 3, 1⟩, 1, .weeks⟩],
          some ⟨true, true⟩, .val ⟨2024, 2, 1⟩, 1, .days⟩).2.2 (by decide)
    have hmem := h.1
    revert hmem
    decide

/-- C10: the color token `getWarrantyStatusInfo` returns is uniquely
determined by the returned status (`Expired` ↦ danger, `ExpiringSoon` ↦
warning, `Active` ↦ success, the sentinel case included). -/
theorem getWarrantyStatusInfo_color_of_status (today : JsDate) (w : Warranty) :
    (getWarrantyStatusInfo today w).color =
      statusColor (getWarrantyStatusInfo today w).status := by
  unfold getWarrantyStatusInfo
  cases collectExpiryDates w with
  | nil => rfl
  | cons x xs =>
    dsimp only
    split_ifs <;> rfl

/-- Counterexample to C3 as stated: `calculateExpiryDate` with unit
`months` on Jan 31 2023 plus 1 month yields Mar 3 2023 — the overflow
rolls into March — not the last valid day of February. -/
theorem calculateExpiryDate_months_cex :
    calculateExpiryDate (.val ⟨2023, 1, 31⟩) 1 .months = some ⟨2023, 3, 3⟩ ∧
    (⟨2023, 3, 3⟩ : JsDate).month ≠ 2 := by
  constructor
  · rfl
  · decide

/-- C3 (amended): month-unit arithmetic in `calculateExpiryDate` follows
ECMAScript rollover: with target year `y + (m - 1 + p) / 12` and target
month `(m - 1 + p) % 12 + 1`, the result keeps the day-of-month when it
exists in the target month and otherwise rolls the excess days into the
month after the target. -/
theorem calculateExpiryDate_months_rollover (y : Int) (m d p : Nat)
    (h : Valid ⟨y, m, d⟩) :
    calculateExpiryDate (.val ⟨y, m, d⟩) p .months =
      some
        (if d ≤ dim (y + (((m - 1) + p) / 12 : Nat)) (((m - 1) + p) % 12 + 1) then
          ⟨y + (((m - 1) + p) / 12 : Nat), ((m - 1) + p) % 12 + 1, d⟩
        else
          ⟨y + (((m - 1) + p) / 12 : Nat), ((m - 1) + p) % 12 + 2,
            d - dim (y + (((m - 1) + p) / 12 : Nat)) (((m - 1) + p) % 12 + 1)⟩) := by
  rw [valid_mk] at h
  obtain ⟨h1, h2, h3, h4⟩ := h
  have hmod : ((m - 1) + p) % 12 < 12 := Nat.mod_lt _ (by norm_num)
  have hd31 : d ≤ 31 := le_trans h4 (dim_le y m)
  show some (addMonths ⟨y, m, d⟩ p) = _
  unfold addMonths
  dsimp only
  split_ifs with hc
  · rw [addDays_first _ _ (d - 1) (by omega)]
    congr 2
    omega
  · rw [addDays_first_overflow _ _ (by omega) (by omega) d h3 hd31 (by omega)]

/-- Witness for C3 (amended): Jan 31 2023 plus 1 month lands on Mar 3
2023. -/
theorem calculateExpiryDate_months_rollover_witness :
    Valid ⟨2023, 1, 31⟩ ∧
    calculateExpiryDate (.val ⟨2023, 1, 31⟩) 1 .months = some ⟨2023, 3, 3⟩ := by
  refine ⟨by decide, ?_⟩
  have h := calculateExpiryDate_months_rollover 2023 1 31 1 (by decide)
  rw [h]
  rfl

/-- Counterexample to C8 as stated: starting from Feb 29 2024, adding one
year and then subtracting one year (`setFullYear` both ways) does not
return the original date — the add lands on Mar 1 2025, and the subtract
yields Mar 1 2024. -/
theorem calculateExpiryDate_years_roundTrip_cex :
    (calculateExpiryDate (.val ⟨2024, 2, 29⟩) 1 .years).map (fun e => subYears e 1) =
      some ⟨2024, 3, 1⟩ ∧
    (⟨2024, 3, 1⟩ : JsDate) ≠ ⟨2024, 2, 29⟩ := by
  constructor
  · rfl
  · decide

/-- C8 (amended): applying `calculateExpiryDate` and then the inverse
operation of the same unit returns the original date always for `days`
and `weeks`, and for `years` whenever the start's day-of-month also
exists in the same month of the target year (the only exception being
Feb 29 with a non-leap target year). -/
theorem calculateExpiryDate_roundTrip (d : JsDate) (p : Nat) (h : Valid d) :
    ((calculateExpiryDate (.val d) p .days).map (fun e => subDays e p) = some d) ∧
    ((calculateExpiryDate (.val d) p .weeks).map (fun e => subDays e (p * 7)) = some d) ∧
    (d.day ≤ dim (d.year + p) d.month →
      (calculateExpiryDate (.val d) p .years).map (fun e => subYears e p) = some d) := by
  refine ⟨?_, ?_, ?_⟩
  · show some (subDays (addDays d p) p) = some d
    rw [subDays_addDays h]
  · show some (subDays (addDays d (p * 7)) (p * 7)) = some d
    rw [subDays_addDays h]
  · intro hday
    obtain ⟨y, m, dd⟩ := d
    rw [valid_mk] at h
    obtain ⟨h1, h2, h3, h4⟩ := h
    show some (subYears (addYears ⟨y, m, dd⟩ p) p) = some ⟨y, m, dd⟩
    unfold addYears
    dsimp only
    dsimp only at hday
    rw [addDays_first _ _ (dd - 1) (by omega)]
    unfold subYears
    dsimp only
    have hy : y + (p : Int) - (p : Int) = y := by ring
    rw [hy]
    have hdd : 1 + (dd - 1) - 1 = dd - 1 := by omega
    rw [hdd]
    rw [addDays_first _ _ (dd - 1) (by omega)]
    congr 2
    omega

/-- Counterexample to C4 as stated: the claim's normalization rule applies
to every phone string, but the code's empty-string guard returns `""` for
empty input where the described rule would produce `"60"`. -/
theorem formatPhoneNumberForWhatsApp_empty_cex :
    formatPhoneNumberForWhatsApp "" = "" ∧ formatPhoneSpec "" = "60" ∧
    ("" : String) ≠ "60" := by
  refine ⟨rfl, rfl, by decide⟩

/-- C4 (amended): for every non-empty phone string the code's WhatsApp
normalization agrees with the spec's description (strip non-digits,
convert a leading trunk `0` into the `60` country-code form, and prepend
`60` when it is still missing). -/
theorem formatPhoneNumberForWhatsApp_eq_spec (phone : String) (h : phone ≠ "") :
    formatPhoneNumberForWhatsApp phone = formatPhoneSpec phone := by
  unfold formatPhoneNumberForWhatsApp formatPhoneSpec
  rw [if_neg h]
  cases hd : phone.data.filter Char.isDigit with
  | nil => simp [hd]
  | cons c rest =>
    simp only [hd]
    by_cases hc : c = '0'
    · subst hc
      simp
    · simp [hc]

/-- Witness for C4 (amended): the three normalization examples of the
spec. -/
theorem formatPhoneNumberForWhatsApp_eq_spec_witness :
    ("012-3456789" : String) ≠ "" ∧
    formatPhoneNumberForWhatsApp "012-3456789" = formatPhoneSpec "012-3456789" ∧
    formatPhoneSpec "012-3456789" = "60123456789" ∧
    formatPhoneNumberForWhatsApp "60123456789" = "60123456789" ∧
    formatPhoneNumberForWhatsApp "123456789" = "60123456789" := by
  refine ⟨by decide, formatPhoneNumberForWhatsApp_eq_spec "012-3456789" (by decide),
    rfl, rfl, rfl⟩

/-- C9: the empty phone string maps to the empty string (no `60` prefix
is added), while every non-empty input with no digit characters at all
normalizes to exactly `"60"`. -/
theorem formatPhoneNumberForWhatsApp_empty_vs_digitless :
    formatPhoneNumberForWhatsApp "" = "" ∧
    (∀ s : String, s ≠ "" → s.data.filter Char.isDigit = [] →
      formatPhoneNumberForWhatsApp s = "60") := by
  constructor
  · rfl
  · intro s hs hd
    unfold formatPhoneNumberForWhatsApp
    rw [if_neg hs]
    simp [hd]

/-- Witness for C9: the digitless input `"abc"` normalizes to `"60"`. -/
theorem formatPhoneNumberForWhatsApp_empty_vs_digitless_witness :
    ("abc" : String) ≠ "" ∧ formatPhoneNumberForWhatsApp "abc" = "60" := by
  refine ⟨by decide, ?_⟩
  exact formatPhoneNumberForWhatsApp_empty_vs_digitless.2 "abc" (by decide) (by rfl)

/-- A record that has gone through `migrateRecord` no longer triggers the
migration scan: its trigger fields are cleared and `servicesProvided` is
defined. -/
theorem needsMigration_migrateRecord (w : MigRecord) :
    needsMigration (migrateRecord w) = false := by
  simp only [migrateRecord]
  by_cases hA : (truthyStr w.productName || truthyStr w.purchaseDate) = true
  · simp only [if_pos hA]
    by_cases hS : w.servicesProvided.isNone
    · simp [needsMigration, truthyStr, hS]
    · simp [needsMigration, truthyStr, hS]
  · have ha : truthyStr w.productName = false ∧ truthyStr w.purchaseDate = false := by
      constructor <;> (revert hA; cases truthyStr w.productName <;>
        cases truthyStr w.purchaseDate <;> simp)
    simp only [if_neg hA]
    by_cases hS : w.servicesProvided.isNone
    · simp [needsMigration, ha.1, ha.2, hS]
    · simp [needsMigration, ha.1, ha.2, hS]

/-- C5: the startup migration is idempotent — migrating a stored record
set twice yields the same record set as migrating it once (after one
pass no record still triggers the scan, so the second pass is the
identity). -/
theorem migrateWarranties_idempotent (ws : List MigRecord) :
    migrateWarranties (migrateWarranties ws) = migrateWarranties ws := by
  unfold migrateWarranties
  by_cases h : ws.any needsMigration = true
  · rw [if_pos h]
    have hall : (ws.map migrateRecord).any needsMigration = false := by
      rw [List.any_map, List.any_eq_false]
      intro x _
      simp [Function.comp, needsMigration_migrateRecord]
    rw [if_neg (by simp [hall])]
  · rw [if_neg h, if_neg h]

/-- C6: a legacy record with top-level product fields and no `products`
sequence migrates to a single synthesized product taking `productName`,
`serialNumber`, `purchaseDate`, `productWarrantyPeriod` and
`productWarrantyUnit` from the top level (defaults: empty string, empty
string, as-is, 0, `"months"`), and all five legacy top-level fields are
removed. -/
theorem migrateRecord_synthesizes (w : MigRecord)
    (h1 : (truthyStr w.productName || truthyStr w.purchaseDate) = true)
    (h2 : w.products = none) :
    (migrateRecord w).products =
      some [⟨some (jsOrStr w.productName ""), some (jsOrStr w.serialNumber ""),
             w.purchaseDate, some (w.productWarrantyPeriod.getD 0),
             some (jsOrStr w.productWarrantyUnit "months")⟩] ∧
    (migrateRecord w).productName = none ∧
    (migrateRecord w).serialNumber = none ∧
    (migrateRecord w).purchaseDate = none ∧
    (migrateRecord w).productWarrantyPeriod = none ∧
    (migrateRecord w).productWarrantyUnit = none := by
  simp only [migrateRecord, h2, if_pos h1]
  by_cases hS : w.servicesProvided.isNone
  · simp [hS, legacySingleton]
  · simp [hS, legacySingleton]

/-- Witness for C6: the spec's `Fan` example record. -/
theorem migrateRecord_synthesizes_witness :
    ((truthyStr (some "Fan") || truthyStr (some "2023-06-01")) = true) ∧
    (migrateRecord ⟨some "Fan", none, some "2023-06-01", some 2, some "years",
        none, some ⟨true, false⟩, none, none⟩).products =
      some [⟨some "Fan", some "", some "2023-06-01", some 2, some "years"⟩] ∧
    (migrateRecord ⟨some "Fan", none, some "2023-06-01", some 2, some "years",
        none, some ⟨true, false⟩, none, none⟩).productName = none ∧
    (migrateRecord ⟨some "Fan", none, some "2023-06-01", some 2, some "years",
        none, some ⟨true, false⟩, none, none⟩).purchaseDate = none := by
  have h := migrateRecord_synthesizes
    ⟨some "Fan", none, some "2023-06-01", some 2, some "years",
      none, some ⟨true, false⟩, none, none⟩ (by decide) rfl
  exact ⟨by decide, h.1, h.2.1, h.2.2.2.1⟩

/-- C7: in reminder mode, when no product passes the unexpired filter and
no unexpired installation coverage with the install flag exists,
`generateShareMessage` returns the generic fallback reminder — a fixed
non-empty text addressed to the customer — never an empty or
itemized-but-empty body. -/
theorem generateShareMessage_reminder_fallback (today : JsDate) (w : Warranty)
    (h1 : ∀ p ∈ w.products, unexpiredProduct today p = false)
    (h2 : ¬(servicesInstall w = true ∧ isInstallationUnexpired today w = true)) :
    generateShareMessage today w true =
      "Hi " ++ w.customerName ++
        ",\n\nThis is a friendly reminder regarding your warranties. Please review your records for items that may be expiring soon.\n\nThank you!" ∧
    generateShareMessage today w true ≠ "" := by
  have hf : w.products.filter (unexpiredProduct today) = [] := by
    rw [List.filter_eq_nil_iff]
    intro p hp
    simp [h1 p hp]
  have hb : (servicesInstall w && isInstallationUnexpired today w) = false := by
    cases hsv : servicesInstall w with
    | false => simp
    | true =>
      cases hiv : isInstallationUnexpired today w with
      | false => simp
      | true => exact absurd ⟨hsv, hiv⟩ h2
  have hmain : generateShareMessage today w true =
      "Hi " ++ w.customerName ++
        ",\n\nThis is a friendly reminder regarding your warranties. Please review your records for items that may be expiring soon.\n\nThank you!" := by
    simp [generateShareMessage, hf, hb]
  refine ⟨hmain, ?_⟩
  rw [hmain]
  intro hne
  have hdata := congrArg String.data hne
  simp [String.data_append] at hdata

/-- Witness for C7: a warranty with one expired product and no
installation coverage yields the generic fallback text. -/
theorem generateShareMessage_reminder_fallback_witness :
    generateShareMessage ⟨2024, 5, 15⟩
      ⟨"Ali", "0123", "a@b.c",
        [⟨"Kettle", "SN9", .val ⟨2020, 1, 1⟩, 1, .days⟩],
        some ⟨true, false⟩, .undef, 0, .months⟩ true =
      "Hi Ali,\n\nThis is a friendly reminder regarding your warranties. Please review your records for items that may be expiring soon.\n\nThank you!" := by
  have h := generateShareMessage_reminder_fallback ⟨2024, 5, 15⟩
      ⟨"Ali", "0123", "a@b.c",
        [⟨"Kettle", "SN9", .val ⟨2020, 1, 1⟩, 1, .days⟩],
        some ⟨true, false⟩, .undef, 0, .months⟩
      (by decide) (by decide)
  rw [h.1]
  rfl

/-- Witness for C8 (amended): a concrete round trip for each of the three
units from Jan 15 2024. -/
theorem calculateExpiryDate_roundTrip_witness :
    Valid ⟨2024, 1, 15⟩ ∧
    ((calculateExpiryDate (.val ⟨2024, 1, 15⟩) 3 .days).map (fun e => subDays e 3) =
      some ⟨2024, 1, 15⟩) ∧
    ((calculateExpiryDate (.val ⟨2024, 1, 15⟩) 3 .weeks).map (fun e => subDays e (3 * 7)) =
      some ⟨2024, 1, 15⟩) ∧
    ((calculateExpiryDate (.val ⟨2024, 1, 15⟩) 3 .years).map (fun e => subYears e 3) =
      some ⟨2024, 1, 15⟩) := by
  have h := calculateExpiryDate_roundTrip ⟨2024, 1, 15⟩ 3 (by decide)
  exact ⟨by decide, h.1, h.2.1, h.2.2 (by decide)⟩

end WarrantyKeeper
